import Mathlib

/-!
Verification of the `javor454/balancer` reverse-proxy load balancer.

The development shallowly embeds the admission-and-distribution core of the
Go source:

* the capacity gate of `ProxyServerPool` (a buffered channel of size
  `maxCapacity`, `AcquireCapacityWithTimeout`, `ReleaseCapacity`),
* the round-robin backend selection of `ProxyServerPool.NextServer`,
* the catch-all proxy handler installed by `registerProxyServer`,
* the `SingleClientBalancer` fairness strategy, and
* the `RoundRobinBalancer` fairness strategy.

Machine clock values and identifiers (UUIDs) are modelled as natural
numbers; Go's `time.Time` zero value for `Job.CompletedAt` is modelled as
`Option Nat` with `none` for the zero value.  Go maps keyed by fresh UUIDs
are modelled as association lists with a fresh-id counter, and goroutines
spawned with `go` are modelled as events recorded in the state that a later
trace step may fire.
-/

namespace Balancer

/-! ## Capacity gate (`server/proxy_server.go`)

The gate is `capacity chan struct{}` with buffer size `maxCapacity`.
The outstanding-acquired count is the channel length `len(p.capacity)`.
A send (`p.capacity <- struct{}{}`) can complete only while the length is
below `maxCapacity`; `AcquireCapacityWithTimeout` otherwise hits the
`timeoutCtx.Done()` branch.  `ReleaseCapacity` is a non-blocking receive
with a `default` branch. -/

/-- A single event against the capacity gate: an acquire attempt (with the
flag recording whether the `timeoutCtx.Done()` branch of the `select` fired
first), or a `ReleaseCapacity` call. -/
inductive CapOp where
  | acquire (timedOut : Bool)
  | release
deriving DecidableEq, Repr

/-- The channel send in `AcquireCapacityWithTimeout` succeeds exactly when
the `Done` branch has not fired and the buffered channel is not full. -/
def acquireSucceeds (maxCapacity n : Nat) (timedOut : Bool) : Bool :=
  !timedOut && decide (n < maxCapacity)

/-- Effect of one capacity-gate event on the channel length `n`.
`release` mirrors the `select`/`default` in `ReleaseCapacity`: it consumes
a token when one is buffered and is a no-op otherwise. -/
def capStep (maxCapacity n : Nat) : CapOp → Nat
  | .acquire t => if acquireSucceeds maxCapacity n t then n + 1 else n
  | .release => if 0 < n then n - 1 else n

/-- Channel length after running a sequence of capacity-gate events from a
fresh pool (`make(chan struct{}, maxCapacity)` starts empty). -/
def runCapOps (maxCapacity : Nat) (ops : List CapOp) : Nat :=
  ops.foldl (capStep maxCapacity) 0

/-- `GetAvailableCapacity` returns `maxCapacity - len(p.capacity)`. -/
def availableCapacity (maxCapacity n : Nat) : Nat := maxCapacity - n

/-! ## Acquire error taxonomy (`server/proxy_server.go`)

`AcquireCapacityWithTimeout` builds `timeoutCtx` with
`context.WithTimeout(ctx, timeout)` and selects between the channel send
and `timeoutCtx.Done()`.  The `Done` channel of a `WithTimeout` context
fires both when the timeout elapses and when the parent context `ctx` is
canceled; the function returns `ErrNoCapacity` in either case. -/

/-- The three sentinel errors declared in `server/proxy_server.go`. -/
inductive ProxyError where
  | noHealthyServers
  | noServers
  | noCapacity
deriving DecidableEq, Repr

deriving instance DecidableEq for Except

/-- Why `timeoutCtx.Done()` fired: the timeout elapsed, or the surrounding
context passed into `AcquireCapacityWithTimeout` was canceled. -/
inductive DoneReason where
  | timeout
  | parentCanceled
deriving DecidableEq, Repr

/-- Which branch of the `select` in `AcquireCapacityWithTimeout` ran. -/
inductive SelectBranch where
  | slotAcquired
  | ctxDone (r : DoneReason)
deriving DecidableEq, Repr

/-- Return value of `AcquireCapacityWithTimeout` as a function of the
`select` branch taken: `nil` on a successful send, `ErrNoCapacity` on the
`timeoutCtx.Done()` branch — regardless of why `Done` fired. -/
def acquireCapacityOutcome : SelectBranch → Option ProxyError
  | .slotAcquired => none
  | .ctxDone _ => some .noCapacity

/-! ## Backend selection (`ProxyServerPool.NextServer`)

A backend is abstracted to its health flag (`server.IsAlive()`), so the
pool's server list is a `List Bool` and a selected server is reported by
its index.  The scan is the Go loop

```
for range sumBackends * 2 {
    server := p.servers[p.currentServerIndex]
    p.currentServerIndex = (p.currentServerIndex + 1) % sumBackends
    if server.IsAlive() { return server.reverseProxy, nil }
}
return nil, ErrNoHealthyServers
```

embedded with the remaining iteration count as fuel. -/

/-- Health of the backend at slot `i` (`p.servers[i].IsAlive()`); an
out-of-range slot reads as unhealthy (never examined in reachable states,
where the cursor stays below the pool size). -/
def healthyAt (backends : List Bool) (i : Nat) : Bool :=
  backends.getD i false

/-- The bounded round-robin scan of `NextServer`: examine the slot under
the cursor, advance the cursor by one modulo the pool size, return the
slot if healthy, else recurse on the remaining fuel; exhausted fuel yields
`ErrNoHealthyServers`.  Returns the selection result together with the new
cursor value. -/
def scanLoop (backends : List Bool) : Nat → Nat → Except ProxyError Nat × Nat
  | 0, cursor => (.error .noHealthyServers, cursor)
  | fuel + 1, cursor =>
      let cursor' := (cursor + 1) % backends.length
      if healthyAt backends cursor then (.ok cursor, cursor')
      else scanLoop backends fuel cursor'

/-- The selection part of `NextServer` (after capacity has been acquired):
an empty pool yields `ErrNoServers`; otherwise scan at most
`2 * len(p.servers)` slots from the rotation cursor. -/
def nextServerSelect (backends : List Bool) (cursor : Nat) :
    Except ProxyError Nat × Nat :=
  if backends.length = 0 then (.error .noServers, cursor)
  else scanLoop backends (2 * backends.length) cursor

/-- `count` consecutive `NextServer` selections (capacity already held),
threading the rotation cursor; returns the list of per-call results and
the final cursor. -/
def selectRun (backends : List Bool) : Nat → Nat → List (Except ProxyError Nat) × Nat
  | 0, cursor => ([], cursor)
  | count + 1, cursor =>
      let r := nextServerSelect backends cursor
      let rest := selectRun backends count r.2
      (r.1 :: rest.1, rest.2)

/-! ## Full pool state and the catch-all proxy handler

`registerProxyServer` (in the HTTP server wiring) installs

```
handler, err := proxyServerPool.NextServer(r.Context())
if err != nil {
    http.Error(w, "No available backend servers", http.StatusServiceUnavailable)
    return
}
handler.ServeHTTP(w, r)
proxyServerPool.ReleaseCapacity()
```

on the catch-all route.  Note the early `return` on error skips
`ReleaseCapacity`, and `NextServer` itself releases nothing on its
selection-error paths. -/

/-- The mutable state of a `ProxyServerPool`: the configured maximum
capacity, the buffered-channel length (outstanding acquisitions), the
backend health flags and the rotation cursor. -/
structure PoolState where
  maxCapacity : Nat
  acquired : Nat
  backends : List Bool
  cursor : Nat
deriving DecidableEq, Repr

/-- `ReleaseCapacity`: non-blocking receive from the capacity channel. -/
def releaseCapacity (p : PoolState) : PoolState :=
  { p with acquired := if 0 < p.acquired then p.acquired - 1 else p.acquired }

/-- `NextServer` including its initial `AcquireCapacityWithTimeout` call:
on acquisition failure return `ErrNoCapacity` with the state unchanged;
on acquisition success increment the outstanding count and run the
selection scan.  No path of `NextServer` releases the acquired slot. -/
def nextServerFull (p : PoolState) (timedOut : Bool) :
    Except ProxyError Nat × PoolState :=
  if acquireSucceeds p.maxCapacity p.acquired timedOut then
    let p1 : PoolState := { p with acquired := p.acquired + 1 }
    let r := nextServerSelect p1.backends p1.cursor
    (r.1, { p1 with cursor := r.2 })
  else (.error .noCapacity, p)

/-- The catch-all load-balancer handler from `registerProxyServer`: on any
`NextServer` error it writes HTTP 503 and returns early (without touching
the capacity gate); on success it proxies the exchange (HTTP 200 from the
model's point of view) and then calls `ReleaseCapacity`. -/
def loadBalancerHandler (p : PoolState) (timedOut : Bool) : Nat × PoolState :=
  match nextServerFull p timedOut with
  | (.error _, p1) => (503, p1)
  | (.ok _, p1) => (200, releaseCapacity p1)

/-! ## Shared fairness-strategy entities (`internal/balancer/client.go`) -/

/-- `Client`: identity token plus last-activity timestamp. -/
structure Client where
  id : Nat
  lastActive : Nat
deriving DecidableEq, Repr

/-- `Job`: creation timestamp and completion timestamp, with `none`
standing for Go's zero `time.Time` (not yet completed). -/
structure Job where
  createdAt : Nat
  completedAt : Option Nat
deriving DecidableEq, Repr

/-- The four sentinel errors of the fairness strategies. -/
inductive BalancerError where
  | clientNotFound
  | serverAtCapacity
  | clientNotActive
  | jobNotFound
deriving DecidableEq, Repr

/-- The job-status strings `StatusPending` / `StatusFinished`. -/
inductive JobStatus where
  | pending
  | finished
deriving DecidableEq, Repr

/-- First-match lookup in an association list, standing for a Go map read
(keys are fresh UUIDs, so they are unique in every reachable state). -/
def alistLookup {α : Type} : List (Nat × α) → Nat → Option α
  | [], _ => none
  | (k, v) :: rest, key => if k = key then some v else alistLookup rest key

/-- Overwrite the value stored under `key`, standing for a Go map write to
an existing key. -/
def alistSet {α : Type} (l : List (Nat × α)) (key : Nat) (v : α) :
    List (Nat × α) :=
  l.map (fun kv => if kv.1 = key then (key, v) else kv)

/-- Remove the entries stored under `key`, standing for Go's `delete`. -/
def alistErase {α : Type} (l : List (Nat × α)) (key : Nat) : List (Nat × α) :=
  l.filter (fun kv => kv.1 ≠ key)

/-! ## Single-client strategy (`SingleClientBalancer`) -/

/-- State of a `SingleClientBalancer`: configuration fields, the optional
active client, the FIFO waiting slice, the jobs map, the completion
goroutines scheduled by `go b.completeJob(jobID)` (recorded as pairs of
job id and due time `now + jobDuration`), and the fresh-UUID counter. -/
structure SCState where
  capacity : Nat
  sessionTimeout : Nat
  jobDuration : Nat
  activeClient : Option Client
  waitingClients : List Client
  jobs : List (Nat × Job)
  scheduled : List (Nat × Nat)
  nextId : Nat
deriving DecidableEq, Repr

/-- Fresh balancer as built by `NewSingleClientBalancer`. -/
def SCState.init (capacity sessionTimeout jobDuration : Nat) : SCState :=
  { capacity := capacity
    sessionTimeout := sessionTimeout
    jobDuration := jobDuration
    activeClient := none
    waitingClients := []
    jobs := []
    scheduled := []
    nextId := 0 }

/-- `activateNextClient`: clear the active slot, then promote the head of
the waiting slice (refreshing its `LastActive`) when one exists. -/
def activateNextClient (s : SCState) (now : Nat) : SCState :=
  match s.waitingClients with
  | [] => { s with activeClient := none }
  | c :: rest =>
      { s with activeClient := some { c with lastActive := now }
               waitingClients := rest }

/-- `RegisterClient`: a fresh client becomes active when no client is
active, and is appended to the waiting slice otherwise.  Returns the new
client id (registration never fails). -/
def registerClient (s : SCState) (now : Nat) : Nat × SCState :=
  let c : Client := { id := s.nextId, lastActive := now }
  match s.activeClient with
  | none => (c.id, { s with activeClient := some c, nextId := s.nextId + 1 })
  | some _ =>
      (c.id, { s with waitingClients := s.waitingClients ++ [c]
                      nextId := s.nextId + 1 })

/-- `RegisterJob`: reject a caller who is not the active client; evict a
stale active client (promoting the next waiter) and reject; reject at
capacity; otherwise record a fresh job, refresh the active client's
`LastActive` and spawn the completion goroutine. -/
def registerJob (s : SCState) (clientID now : Nat) :
    Except BalancerError Nat × SCState :=
  match s.activeClient with
  | none => (.error .clientNotActive, s)
  | some a =>
      if a.id ≠ clientID then (.error .clientNotActive, s)
      else if s.sessionTimeout < now - a.lastActive then
        (.error .clientNotActive, activateNextClient s now)
      else if s.capacity ≤ s.jobs.length then (.error .serverAtCapacity, s)
      else
        let jid := s.nextId
        (.ok jid,
         { s with activeClient := some { a with lastActive := now }
                  jobs := s.jobs ++ [(jid, { createdAt := now, completedAt := none })]
                  scheduled := s.scheduled ++ [(jid, now + s.jobDuration)]
                  nextId := s.nextId + 1 })

/-- `completeRequest` (the body of the completion goroutine after its
sleep): stamp the job's completion time in place; the job stays in the
map. -/
def completeRequest (s : SCState) (jobID now : Nat) :
    Except BalancerError Unit × SCState :=
  match alistLookup s.jobs jobID with
  | some job =>
      (.ok (), { s with jobs := alistSet s.jobs jobID { job with completedAt := some now } })
  | none => (.error .jobNotFound, s)

/-- `GetJobStatus` of the single-client strategy: pending while
`CompletedAt` is the zero value, finished once stamped, not-found when the
job is absent from the map. -/
def getJobStatus (s : SCState) (jobID : Nat) : Except BalancerError JobStatus :=
  match alistLookup s.jobs jobID with
  | some job =>
      match job.completedAt with
      | none => .ok .pending
      | some _ => .ok .finished
  | none => .error .jobNotFound

/-- The waiting-slice splice of `Deregister`: remove the first client with
the given id (`append(b.waitingClients[:i], b.waitingClients[i+1:]...)`),
or report that none matches. -/
def removeFirstClient : List Client → Nat → Option (List Client)
  | [], _ => none
  | c :: rest, cid =>
      if c.id = cid then some rest
      else (removeFirstClient rest cid).map (c :: ·)

/-- The waiting-slice branch of `Deregister`. -/
def deregisterWaiting (s : SCState) (clientID : Nat) :
    Except BalancerError Unit × SCState :=
  match removeFirstClient s.waitingClients clientID with
  | some l => (.ok (), { s with waitingClients := l })
  | none => (.error .clientNotFound, s)

/-- `Deregister`: deregistering the active client runs
`activateNextClient`; otherwise the waiting slice is spliced; an unknown
client yields `ErrorClientNotFound`. -/
def deregister (s : SCState) (clientID now : Nat) :
    Except BalancerError Unit × SCState :=
  match s.activeClient with
  | some a =>
      if a.id = clientID then (.ok (), activateNextClient s now)
      else deregisterWaiting s clientID
  | none => deregisterWaiting s clientID

/-- One tick of `cleanupInactiveClients`: evict a stale active client
(promoting the next waiter), then drop stale waiting clients, preserving
the order of the kept ones. -/
def cleanupClientsTick (s : SCState) (now : Nat) : SCState :=
  let s1 :=
    match s.activeClient with
    | some a =>
        if s.sessionTimeout < now - a.lastActive then activateNextClient s now else s
    | none => s
  { s1 with
    waitingClients := s1.waitingClients.filter (fun c => now - c.lastActive ≤ s1.sessionTimeout) }

/-- The pruning predicate of `cleanupFinishedJobs`: a job is deleted only
when completed and its completion age exceeds the session timeout. -/
def jobExpired (sessionTimeout now : Nat) (job : Job) : Bool :=
  match job.completedAt with
  | some t => sessionTimeout < now - t
  | none => false

/-- One tick of `cleanupFinishedJobs`. -/
def cleanupJobsTick (s : SCState) (now : Nat) : SCState :=
  { s with jobs := s.jobs.filter (fun kv => !jobExpired s.sessionTimeout now kv.2) }

/-- One trace event against a `SingleClientBalancer`: an API call, a
completion goroutine firing, or a cleanup-sweep tick. -/
inductive SCOp where
  | register (now : Nat)
  | job (clientID now : Nat)
  | complete (jobID now : Nat)
  | dereg (clientID now : Nat)
  | cleanupClients (now : Nat)
  | cleanupJobs (now : Nat)
deriving DecidableEq, Repr

/-- State transition of one single-client trace event.  A completion event
only fires for a job whose goroutine was actually scheduled. -/
def scStep (s : SCState) : SCOp → SCState
  | .register now => (registerClient s now).2
  | .job cid now => (registerJob s cid now).2
  | .complete jid now =>
      if (s.scheduled.map Prod.fst).contains jid then (completeRequest s jid now).2 else s
  | .dereg cid now => (deregister s cid now).2
  | .cleanupClients now => cleanupClientsTick s now
  | .cleanupJobs now => cleanupJobsTick s now

/-- Run a single-client trace from a fresh balancer. -/
def runSC (capacity sessionTimeout jobDuration : Nat) (ops : List SCOp) : SCState :=
  ops.foldl scStep (SCState.init capacity sessionTimeout jobDuration)

/-! ## Round-robin strategy (`RoundRobinBalancer`) -/

/-- `ClientState`: last-activity timestamp plus the client's FIFO queue of
pending job ids. -/
structure RRClient where
  lastActive : Nat
  pendingJobs : List Nat
deriving DecidableEq, Repr

/-- State of a `RoundRobinBalancer`: configuration capacity, the clients
map, the `activeJobs` and `completedJobs` maps, the rotation order and
cursor, the jobs handed to `go b.processJobFn(jobID)` and not yet
completed, and the fresh-UUID counter. -/
structure RRState where
  capacity : Nat
  clients : List (Nat × RRClient)
  activeJobs : List (Nat × Job)
  completedJobs : List (Nat × Job)
  clientOrder : List Nat
  currentIndex : Nat
  dispatched : List Nat
  nextId : Nat
deriving DecidableEq, Repr

/-- Fresh balancer as built by `NewRoundRobinBalancer`. -/
def RRState.init (capacity : Nat) : RRState :=
  { capacity := capacity
    clients := []
    activeJobs := []
    completedJobs := []
    clientOrder := []
    currentIndex := 0
    dispatched := []
    nextId := 0 }

/-- `RegisterClient` of the round-robin strategy: always succeeds, adds the
client to the map and appends it to the rotation order. -/
def rrRegisterClient (s : RRState) (now : Nat) : Nat × RRState :=
  let cid := s.nextId
  (cid,
   { s with clients := s.clients ++ [(cid, { lastActive := now, pendingJobs := [] })]
            clientOrder := s.clientOrder ++ [cid]
            nextId := s.nextId + 1 })

/-- The scan of `processNextJob` over the rotation, fuel-bounded by the
rotation length (the Go loop stops after at most one full lap): the first
client with pending work has its head job dispatched and the cursor
advances one slot past it; an idle client just advances the cursor, and
the loop stops when the cursor returns to `startIndex`. -/
def processLoop (s : RRState) (startIndex : Nat) : Nat → RRState
  | 0 => s
  | fuel + 1 =>
      let cid := s.clientOrder.getD s.currentIndex 0
      match alistLookup s.clients cid with
      | none => s
      | some cs =>
          match cs.pendingJobs with
          | jid :: rest =>
              let s1 : RRState :=
                { s with clients := alistSet s.clients cid { cs with pendingJobs := rest }
                         dispatched := s.dispatched ++ [jid] }
              { s1 with currentIndex := (s1.currentIndex + 1) % s1.clientOrder.length }
          | [] =>
              let s1 : RRState :=
                { s with currentIndex := (s.currentIndex + 1) % s.clientOrder.length }
              if s1.currentIndex = startIndex then s1 else processLoop s1 startIndex fuel

/-- `processNextJob`: skip entirely when the active-jobs map has reached
capacity or no client is registered; otherwise scan one lap of the
rotation from the current cursor. -/
def processNextJob (s : RRState) : RRState :=
  if s.capacity ≤ s.activeJobs.length then s
  else if s.clientOrder.length = 0 then s
  else processLoop s s.currentIndex s.clientOrder.length

/-- `RegisterJob` of the round-robin strategy: unknown client fails with
`ErrorClientNotActive`; otherwise a fresh job is put into `activeJobs` and
onto the client's pending queue (no capacity check), and when the rotation
cursor currently points at this client, `processNextJob` runs at once. -/
def rrRegisterJob (s : RRState) (clientID now : Nat) :
    Except BalancerError Nat × RRState :=
  match alistLookup s.clients clientID with
  | none => (.error .clientNotActive, s)
  | some cs =>
      let jid := s.nextId
      let s1 : RRState :=
        { s with activeJobs := s.activeJobs ++ [(jid, { createdAt := now, completedAt := none })]
                 clients := alistSet s.clients clientID
                   { cs with pendingJobs := cs.pendingJobs ++ [jid], lastActive := now }
                 nextId := s.nextId + 1 }
      if s1.clientOrder.getD s1.currentIndex 0 = clientID then (.ok jid, processNextJob s1)
      else (.ok jid, s1)

/-- `processJob` (the body of the dispatched goroutine after its sleep):
move the job from `activeJobs` to `completedJobs` with its completion time
stamped, then re-trigger `processNextJob`. -/
def rrProcessJob (s : RRState) (jobID now : Nat) : RRState :=
  match alistLookup s.activeJobs jobID with
  | some job =>
      let s1 : RRState :=
        { s with completedJobs := s.completedJobs ++ [(jobID, { job with completedAt := some now })]
                 activeJobs := alistErase s.activeJobs jobID
                 dispatched := s.dispatched.erase jobID }
      processNextJob s1
  | none => s

/-- `GetJobStatus` of the round-robin strategy: it consults only the
`activeJobs` map — a job absent from it (in particular one moved to
`completedJobs` by `processJob`) yields `ErrorJobNotFound`. -/
def rrGetJobStatus (s : RRState) (jobID : Nat) : Except BalancerError JobStatus :=
  match alistLookup s.activeJobs jobID with
  | none => .error .jobNotFound
  | some job =>
      match job.completedAt with
      | none => .ok .pending
      | some _ => .ok .finished

/-- One trace event against a `RoundRobinBalancer`. -/
inductive RROp where
  | register (now : Nat)
  | job (clientID now : Nat)
  | complete (jobID now : Nat)
deriving DecidableEq, Repr

/-- State transition of one round-robin trace event.  A completion event
only fires for a job whose processing goroutine was actually dispatched. -/
def rrStep (s : RRState) : RROp → RRState
  | .register now => (rrRegisterClient s now).2
  | .job cid now => (rrRegisterJob s cid now).2
  | .complete jid now => if s.dispatched.contains jid then rrProcessJob s jid now else s

/-- Run a round-robin trace from a fresh balancer. -/
def runRR (capacity : Nat) (ops : List RROp) : RRState :=
  ops.foldl rrStep (RRState.init capacity)

end Balancer

open Balancer

/-! ## Theorems -/

theorem capStep_le (maxCapacity n : Nat) (op : CapOp)
    (h : n ≤ maxCapacity) : capStep maxCapacity n op ≤ maxCapacity := by
  cases op with
  | acquire t =>
      simp only [capStep, acquireSucceeds]
      split
      · next hs =>
          have : n < maxCapacity := by
            by_contra hc
            simp [decide_eq_true_eq, hc] at hs
          omega
      · exact h
  | release =>
      simp only [capStep]
      split <;> omega

theorem foldl_capStep_le (maxCapacity : Nat) (ops : List CapOp) :
    ∀ n, n ≤ maxCapacity → ops.foldl (capStep maxCapacity) n ≤ maxCapacity := by
  induction ops with
  | nil => intro n h; simpa using h
  | cons op rest ih =>
      intro n h
      simpa using ih (capStep maxCapacity n op) (capStep_le maxCapacity n op h)

/-- **C1.** For every sequence of capacity-gate operations started from a
fresh pool with `maxCapacity` slots, the outstanding-acquired count
(buffered-channel length) never exceeds `maxCapacity`, and in particular an
acquire attempt cannot succeed while the count equals `maxCapacity`. -/
theorem capacity_gate_invariant (maxCapacity : Nat) (ops : List CapOp) :
    runCapOps maxCapacity ops ≤ maxCapacity ∧
      (runCapOps maxCapacity ops = maxCapacity →
        ∀ t : Bool, acquireSucceeds maxCapacity (runCapOps maxCapacity ops) t = false) := by
  refine ⟨foldl_capStep_le maxCapacity ops 0 (Nat.zero_le _), ?_⟩
  intro hfull t
  simp [acquireSucceeds, hfull]

/-- Witness for C1 at a concrete operation sequence: a single successful
acquire against a one-slot gate fills it, and the full gate refuses a
further acquire. -/
theorem capacity_gate_invariant_witness :
    runCapOps 1 [CapOp.acquire false] ≤ 1 ∧
      acquireSucceeds 1 (runCapOps 1 [CapOp.acquire false]) false = false :=
  ⟨(capacity_gate_invariant 1 [CapOp.acquire false]).1,
   (capacity_gate_invariant 1 [CapOp.acquire false]).2 (by decide) false⟩

theorem scanLoop_all_unhealthy (backends : List Bool) :
    ∀ (fuel cursor : Nat), cursor < backends.length →
      (∀ k < fuel, healthyAt backends ((cursor + k) % backends.length) = false) →
      scanLoop backends fuel cursor =
        (.error .noHealthyServers, (cursor + fuel) % backends.length) := by
  intro fuel
  induction fuel with
  | zero =>
      intro cursor hc _
      simp [scanLoop, Nat.mod_eq_of_lt hc]
  | succ fuel ih =>
      intro cursor hc h
      have h0 : healthyAt backends cursor = false := by
        have := h 0 (Nat.succ_pos fuel)
        simpa [Nat.mod_eq_of_lt hc] using this
      have hn : 0 < backends.length := by omega
      have hc' : (cursor + 1) % backends.length < backends.length := Nat.mod_lt _ hn
      have hrec := ih ((cursor + 1) % backends.length) hc' ?_
      · rw [scanLoop, h0]
        simp only [Bool.false_eq_true, if_false, hrec]
        congr 1
        rw [Nat.mod_add_mod]
        congr 1
        ring
      · intro k hk
        have := h (k + 1) (Nat.succ_lt_succ hk)
        rw [Nat.mod_add_mod]
        have harr : cursor + 1 + k = cursor + (k + 1) := by ring
        rw [harr]
        exact this

theorem scanLoop_first_healthy (backends : List Bool) :
    ∀ (fuel cursor k0 : Nat), cursor < backends.length → k0 < fuel →
      (∀ j < k0, healthyAt backends ((cursor + j) % backends.length) = false) →
      healthyAt backends ((cursor + k0) % backends.length) = true →
      scanLoop backends fuel cursor =
        (.ok ((cursor + k0) % backends.length),
         (cursor + k0 + 1) % backends.length) := by
  intro fuel
  induction fuel with
  | zero => intro cursor k0 _ hk; exact absurd hk (Nat.not_lt_zero _)
  | succ fuel ih =>
      intro cursor k0 hc hk hmin hfound
      have hn : 0 < backends.length := by omega
      cases k0 with
      | zero =>
          have h0 : healthyAt backends cursor = true := by
            simpa [Nat.mod_eq_of_lt hc] using hfound
          rw [scanLoop, h0]
          simp [Nat.mod_eq_of_lt hc]
      | succ k =>
          have h0 : healthyAt backends cursor = false := by
            have := hmin 0 (Nat.succ_pos k)
            simpa [Nat.mod_eq_of_lt hc] using this
          have hc' : (cursor + 1) % backends.length < backends.length := Nat.mod_lt _ hn
          have hshift : ∀ m : Nat,
              ((cursor + 1) % backends.length + m) % backends.length =
                (cursor + (m + 1)) % backends.length := by
            intro m
            rw [Nat.mod_add_mod]
            congr 1
            ring
          have hrec := ih ((cursor + 1) % backends.length) k hc'
            (Nat.lt_of_succ_lt_succ hk) ?_ ?_
          · rw [scanLoop, h0]
            simp only [Bool.false_eq_true, if_false]
            rw [hrec, hshift k]
            have h2 : (cursor + 1) % backends.length + k + 1 =
                (cursor + 1) % backends.length + (k + 1) := by ring
            rw [h2, hshift (k + 1)]
            have h3 : cursor + (k + 1 + 1) = cursor + (k + 1) + 1 := by ring
            rw [h3]
          · intro j hj
            rw [hshift j]
            exact hmin (j + 1) (Nat.succ_lt_succ hj)
          · rw [hshift k]
            exact hfound

/-- **C3.** After capacity is acquired, `NextServer` examines at most
`2 × N` slots starting at the rotation cursor, advancing the cursor by one
modulo `N` per examined slot regardless of health: an empty pool yields the
distinct `ErrNoServers` with the cursor untouched; if all `2 × N` examined
slots are unhealthy it yields `ErrNoHealthyServers` (the cursor having
advanced `2 × N` times, back to its start); otherwise the first healthy
slot encountered is returned and the cursor stops one past it. -/
theorem next_server_scan_spec (backends : List Bool) (cursor : Nat) :
    (backends.length = 0 →
      nextServerSelect backends cursor = (.error .noServers, cursor)) ∧
    (cursor < backends.length →
      ((∀ k < 2 * backends.length,
          healthyAt backends ((cursor + k) % backends.length) = false) →
        nextServerSelect backends cursor = (.error .noHealthyServers, cursor)) ∧
      (∀ k0 < 2 * backends.length,
        (∀ j < k0, healthyAt backends ((cursor + j) % backends.length) = false) →
        healthyAt backends ((cursor + k0) % backends.length) = true →
        nextServerSelect backends cursor =
          (.ok ((cursor + k0) % backends.length),
           (cursor + k0 + 1) % backends.length))) := by
  constructor
  · intro h0
    simp [nextServerSelect, h0]
  · intro hc
    have hn : backends.length ≠ 0 := by omega
    constructor
    · intro hall
      rw [nextServerSelect, if_neg hn]
      rw [scanLoop_all_unhealthy backends (2 * backends.length) cursor hc hall]
      congr 1
      rw [Nat.add_mul_mod_self_right]
      exact Nat.mod_eq_of_lt hc
    · intro k0 hk0 hmin hfound
      rw [nextServerSelect, if_neg hn]
      exact scanLoop_first_healthy backends (2 * backends.length) cursor k0 hc hk0 hmin hfound

/-- Witness for C3: with backends `[unhealthy, healthy]` and the cursor at
`0`, the scan skips slot 0 and returns slot 1, leaving the cursor at `0`
(one past slot 1, modulo 2). -/
theorem next_server_scan_spec_witness :
    nextServerSelect [false, true] 0 = (Except.ok 1, 0) := by
  have h := ((next_server_scan_spec [false, true] 0).2 (by decide)).2 1 (by decide)
    (by
      intro j hj
      have hj0 : j = 0 := by omega
      subst hj0
      decide)
    (by decide)
  simpa using h

theorem next_server_all_healthy_step (backends : List Bool) (cursor : Nat)
    (hc : cursor < backends.length)
    (hall : ∀ b ∈ backends, b = true) :
    nextServerSelect backends cursor =
      (.ok cursor, (cursor + 1) % backends.length) := by
  have hn : backends.length ≠ 0 := by omega
  have hfound : healthyAt backends ((cursor + 0) % backends.length) = true := by
    rw [Nat.add_zero, Nat.mod_eq_of_lt hc]
    unfold healthyAt
    rw [List.getD_eq_getElem backends false hc]
    exact hall _ (List.getElem_mem hc)
  have h := scanLoop_first_healthy backends (2 * backends.length) cursor 0 hc
    (by omega) (by intro j hj; omega) hfound
  rw [nextServerSelect, if_neg hn, h]
  simp [Nat.mod_eq_of_lt hc]

theorem selectRun_all_healthy (backends : List Bool)
    (hall : ∀ b ∈ backends, b = true) :
    ∀ (count cursor : Nat), cursor < backends.length →
      selectRun backends count cursor =
        ((List.range count).map (fun k => Except.ok ((cursor + k) % backends.length)),
         (cursor + count) % backends.length) := by
  intro count
  induction count with
  | zero =>
      intro cursor hc
      simp [selectRun, Nat.mod_eq_of_lt hc]
  | succ count ih =>
      intro cursor hc
      have hn : 0 < backends.length := by omega
      have hstep := next_server_all_healthy_step backends cursor hc hall
      have hc' : (cursor + 1) % backends.length < backends.length := Nat.mod_lt _ hn
      have hrec := ih ((cursor + 1) % backends.length) hc'
      rw [selectRun, hstep]
      simp only [hrec]
      congr 1
      · rw [List.range_succ_eq_map, List.map_cons, List.map_map]
        congr 1
        · rw [Nat.add_zero, Nat.mod_eq_of_lt hc]
        · refine List.map_congr_left ?_
          intro k hk
          simp only [Function.comp_apply, Nat.succ_eq_add_one]
          rw [Nat.mod_add_mod]
          congr 2
          ring
      · rw [Nat.mod_add_mod]
        congr 1
        ring

/-- **C7.** If all `N` backends are healthy and no health state changes
occur, `N` consecutive successful selections return each backend exactly
once, in the order of the configured backend list starting from the
rotation cursor. -/
theorem round_robin_visits_each_once (backends : List Bool) (cursor : Nat)
    (hc : cursor < backends.length)
    (hall : ∀ b ∈ backends, b = true) :
    (selectRun backends backends.length cursor).1 =
      (List.range backends.length).map
        (fun k => Except.ok ((cursor + k) % backends.length)) ∧
    ∀ i < backends.length,
      (selectRun backends backends.length cursor).1.count
        (Except.ok (ε := ProxyError) i) = 1 := by
  have hrun := selectRun_all_healthy backends hall backends.length cursor hc
  have hfst : (selectRun backends backends.length cursor).1 =
      (List.range backends.length).map
        (fun k => Except.ok (ε := ProxyError) ((cursor + k) % backends.length)) := by
    rw [hrun]
  refine ⟨hfst, ?_⟩
  intro i hi
  rw [hfst]
  have hnodup : ((List.range backends.length).map
      (fun k => Except.ok (ε := ProxyError) ((cursor + k) % backends.length))).Nodup := by
    refine List.Nodup.map_on ?_ (List.nodup_range _)
    intro x hx y hy hxy
    simp only [List.mem_range] at hx hy
    have hmod : (cursor + x) % backends.length = (cursor + y) % backends.length :=
      Except.ok.inj hxy
    have h1 : Nat.ModEq backends.length (cursor + x) (cursor + y) := hmod
    have h2 : Nat.ModEq backends.length x y := Nat.ModEq.add_left_cancel' cursor h1
    have h3 : x % backends.length = y % backends.length := h2
    rwa [Nat.mod_eq_of_lt hx, Nat.mod_eq_of_lt hy] at h3
  have hmemk : ∃ k, k < backends.length ∧ (cursor + k) % backends.length = i := by
    by_cases hle : cursor ≤ i
    · exact ⟨i - cursor, by omega, by
        rw [Nat.add_sub_cancel' hle]; exact Nat.mod_eq_of_lt hi⟩
    · refine ⟨backends.length + i - cursor, by omega, ?_⟩
      have heq : cursor + (backends.length + i - cursor) = backends.length + i := by omega
      rw [heq, Nat.add_mod_left]
      exact Nat.mod_eq_of_lt hi
  obtain ⟨k, hk, hkeq⟩ := hmemk
  have hmem : Except.ok (ε := ProxyError) i ∈
      (List.range backends.length).map
        (fun k => Except.ok (ε := ProxyError) ((cursor + k) % backends.length)) :=
    List.mem_map.mpr ⟨k, List.mem_range.mpr hk, by rw [hkeq]⟩
  exact List.count_eq_one_of_mem hnodup hmem

/-- Witness for C7 with two healthy backends and the cursor at slot 1: the
two selections are slot 1 then slot 0, each backend exactly once. -/
theorem round_robin_visits_each_once_witness :
    (selectRun [true, true] 2 1).1 =
      (List.range 2).map (fun k => Except.ok ((1 + k) % 2)) ∧
    ((selectRun [true, true] 2 1).1.count (Except.ok (ε := ProxyError) 0) = 1 ∧
     (selectRun [true, true] 2 1).1.count (Except.ok (ε := ProxyError) 1) = 1) :=
  ⟨(round_robin_visits_each_once [true, true] 1 (by decide) (by decide)).1,
   (round_robin_visits_each_once [true, true] 1 (by decide) (by decide)).2 0 (by decide),
   (round_robin_visits_each_once [true, true] 1 (by decide) (by decide)).2 1 (by decide)⟩

/-- **C4 (code evaluation at the failing input).** The claim says a
capacity slot acquired by `NextServer` is released again when backend
selection fails.  In the code it is not: with `maxCapacity = 1`, no
outstanding acquisition and an empty backend list (resp. a single
unhealthy backend), the catch-all handler's request acquires the slot,
selection fails, the handler answers 503 — and the outstanding count stays
at `1`, the slot leaked (`NextServer`'s selection-error paths and the
handler's early `return` both skip `ReleaseCapacity`). -/
theorem capacity_leak_on_selection_error :
    (loadBalancerHandler
        { maxCapacity := 1, acquired := 0, backends := [], cursor := 0 } false).1 = 503 ∧
    (loadBalancerHandler
        { maxCapacity := 1, acquired := 0, backends := [], cursor := 0 } false).2.acquired = 1 ∧
    (loadBalancerHandler
        { maxCapacity := 1, acquired := 0, backends := [false], cursor := 0 } false).1 = 503 ∧
    (loadBalancerHandler
        { maxCapacity := 1, acquired := 0, backends := [false], cursor := 0 } false).2.acquired = 1 := by
  decide

/-- **C5 (counterexample).** The claim asserts that the timeout error of
`AcquireCapacityWithTimeout` is distinguishable from the error produced
when the surrounding context is canceled before a slot is obtained.  In
the code both situations take the same `timeoutCtx.Done()` branch and both
return `ErrNoCapacity`, so the two outcomes are identical. -/
theorem acquire_timeout_error_counterexample :
    acquireCapacityOutcome (SelectBranch.ctxDone DoneReason.timeout) =
        acquireCapacityOutcome (SelectBranch.ctxDone DoneReason.parentCanceled) ∧
      acquireCapacityOutcome (SelectBranch.ctxDone DoneReason.timeout) =
        some ProxyError.noCapacity := by
  decide

theorem activateNextClient_jobs (s : SCState) (now : Nat) :
    (activateNextClient s now).jobs = s.jobs ∧
      (activateNextClient s now).capacity = s.capacity := by
  cases h : s.waitingClients <;> simp [activateNextClient, h]

theorem registerJob_not_active_none (s : SCState) (clientID now : Nat)
    (h : s.activeClient = none) :
    registerJob s clientID now = (.error .clientNotActive, s) := by
  simp [registerJob, h]

theorem registerJob_not_active_other (s : SCState) (a : Client) (clientID now : Nat)
    (h : s.activeClient = some a) (hne : a.id ≠ clientID) :
    registerJob s clientID now = (.error .clientNotActive, s) := by
  simp [registerJob, h, hne]

theorem registerJob_stale (s : SCState) (a : Client) (clientID now : Nat)
    (h : s.activeClient = some a) (heq : a.id = clientID)
    (hst : s.sessionTimeout < now - a.lastActive) :
    registerJob s clientID now = (.error .clientNotActive, activateNextClient s now) := by
  simp [registerJob, h, heq, hst]

theorem registerJob_at_capacity (s : SCState) (a : Client) (clientID now : Nat)
    (h : s.activeClient = some a) (heq : a.id = clientID)
    (hfresh : now - a.lastActive ≤ s.sessionTimeout)
    (hcap : s.capacity ≤ s.jobs.length) :
    registerJob s clientID now = (.error .serverAtCapacity, s) := by
  simp [registerJob, h, heq, Nat.not_lt.mpr hfresh, hcap]

theorem registerJob_success (s : SCState) (a : Client) (clientID now : Nat)
    (h : s.activeClient = some a) (heq : a.id = clientID)
    (hfresh : now - a.lastActive ≤ s.sessionTimeout)
    (hroom : s.jobs.length < s.capacity) :
    registerJob s clientID now =
      (.ok s.nextId,
       { s with activeClient := some { a with lastActive := now }
                jobs := s.jobs ++ [(s.nextId, { createdAt := now, completedAt := none })]
                scheduled := s.scheduled ++ [(s.nextId, now + s.jobDuration)]
                nextId := s.nextId + 1 }) := by
  simp [registerJob, h, heq, Nat.not_lt.mpr hfresh, Nat.not_le.mpr hroom]

/-- **C6.** Full case analysis of `RegisterJob` in the single-client
strategy: not-active when the caller is not the active client; not-active
with eviction and promotion when the active caller's last-activity age
exceeds the session timeout; at-capacity when the tracked-job count has
reached the configured capacity; otherwise a fresh job is recorded, the
active client's last-activity timestamp is refreshed, and an asynchronous
completion is scheduled to run after the fixed job duration. -/
theorem single_client_register_job_spec (s : SCState) (clientID now : Nat) :
    (s.activeClient = none →
      registerJob s clientID now = (.error .clientNotActive, s)) ∧
    (∀ a, s.activeClient = some a → a.id ≠ clientID →
      registerJob s clientID now = (.error .clientNotActive, s)) ∧
    (∀ a, s.activeClient = some a → a.id = clientID →
      s.sessionTimeout < now - a.lastActive →
      registerJob s clientID now = (.error .clientNotActive, activateNextClient s now)) ∧
    (∀ a, s.activeClient = some a → a.id = clientID →
      now - a.lastActive ≤ s.sessionTimeout →
      s.capacity ≤ s.jobs.length →
      registerJob s clientID now = (.error .serverAtCapacity, s)) ∧
    (∀ a, s.activeClient = some a → a.id = clientID →
      now - a.lastActive ≤ s.sessionTimeout →
      s.jobs.length < s.capacity →
      (registerJob s clientID now).1 = .ok s.nextId ∧
      (registerJob s clientID now).2.jobs =
        s.jobs ++ [(s.nextId, { createdAt := now, completedAt := none })] ∧
      (registerJob s clientID now).2.activeClient = some { a with lastActive := now } ∧
      (registerJob s clientID now).2.scheduled =
        s.scheduled ++ [(s.nextId, now + s.jobDuration)]) := by
  refine ⟨?_, ?_, ?_, ?_, ?_⟩
  · intro h; exact registerJob_not_active_none s clientID now h
  · intro a h hne; exact registerJob_not_active_other s a clientID now h hne
  · intro a h heq hst; exact registerJob_stale s a clientID now h heq hst
  · intro a h heq hfresh hcap; exact registerJob_at_capacity s a clientID now h heq hfresh hcap
  · intro a h heq hfresh hroom
    rw [registerJob_success s a clientID now h heq hfresh hroom]
    exact ⟨rfl, rfl, rfl, rfl⟩

/-- Witness for C6 on the success branch: a freshly active client (id 0,
last active at 0, timeout 10) registers a job at time 5 in an empty
balancer with capacity 3; the job id is the fresh counter value 1. -/
theorem single_client_register_job_spec_witness :
    (registerJob
        { capacity := 3, sessionTimeout := 10, jobDuration := 2,
          activeClient := some { id := 0, lastActive := 0 },
          waitingClients := [], jobs := [], scheduled := [], nextId := 1 } 0 5).1 =
      Except.ok 1 ∧
    (registerJob
        { capacity := 3, sessionTimeout := 10, jobDuration := 2,
          activeClient := some { id := 0, lastActive := 0 },
          waitingClients := [], jobs := [], scheduled := [], nextId := 1 } 0 5).2.scheduled =
      [(1, 7)] :=
  ⟨((single_client_register_job_spec
      { capacity := 3, sessionTimeout := 10, jobDuration := 2,
        activeClient := some { id := 0, lastActive := 0 },
        waitingClients := [], jobs := [], scheduled := [], nextId := 1 } 0 5).2.2.2.2
      { id := 0, lastActive := 0 } rfl rfl (by decide) (by decide)).1,
   ((single_client_register_job_spec
      { capacity := 3, sessionTimeout := 10, jobDuration := 2,
        activeClient := some { id := 0, lastActive := 0 },
        waitingClients := [], jobs := [], scheduled := [], nextId := 1 } 0 5).2.2.2.2
      { id := 0, lastActive := 0 } rfl rfl (by decide) (by decide)).2.2.2⟩

theorem removeFirstClient_split (cid : Nat) :
    ∀ (l1 : List Client) (c : Client) (l2 : List Client),
      c.id = cid → (∀ c2 ∈ l1, c2.id ≠ cid) →
      removeFirstClient (l1 ++ c :: l2) cid = some (l1 ++ l2) := by
  intro l1
  induction l1 with
  | nil =>
      intro c l2 hc _
      simp [removeFirstClient, hc]
  | cons x rest ih =>
      intro c l2 hc hnone
      have hx : x.id ≠ cid := hnone x (by simp)
      have ih' := ih c l2 hc (fun c2 h2 => hnone c2 (by simp [h2]))
      simp [removeFirstClient, hx, ih']

theorem removeFirstClient_not_found (cid : Nat) :
    ∀ l : List Client, (∀ c ∈ l, c.id ≠ cid) → removeFirstClient l cid = none := by
  intro l
  induction l with
  | nil => intro _; rfl
  | cons x rest ih =>
      intro h
      have hx : x.id ≠ cid := h x (by simp)
      have ih' := ih (fun c hc => h c (by simp [hc]))
      simp [removeFirstClient, hx, ih']

/-- **C8.** `Deregister` in the single-client strategy: deregistering the
active client promotes the head of the FIFO waiting sequence (with a
refreshed last-activity timestamp) within that single operation, or leaves
no active client when the sequence is empty; deregistering a waiting
client removes exactly that client, preserving the relative order of the
remaining waiting clients; deregistering an unknown client fails with the
client-not-found error and leaves the state unchanged. -/
theorem single_client_deregister_spec (s : SCState) (clientID now : Nat) :
    (∀ a, s.activeClient = some a → a.id = clientID →
      deregister s clientID now = (.ok (), activateNextClient s now) ∧
      (s.waitingClients = [] →
        (deregister s clientID now).2.activeClient = none ∧
        (deregister s clientID now).2.waitingClients = []) ∧
      (∀ c rest, s.waitingClients = c :: rest →
        (deregister s clientID now).2.activeClient = some { c with lastActive := now } ∧
        (deregister s clientID now).2.waitingClients = rest)) ∧
    ((∀ a, s.activeClient = some a → a.id ≠ clientID) →
      (∀ l1 c l2, s.waitingClients = l1 ++ c :: l2 → c.id = clientID →
        (∀ c2 ∈ l1, c2.id ≠ clientID) →
        deregister s clientID now =
          (.ok (), { s with waitingClients := l1 ++ l2 })) ∧
      ((∀ c ∈ s.waitingClients, c.id ≠ clientID) →
        deregister s clientID now = (.error .clientNotFound, s))) := by
  constructor
  · intro a ha heq
    have hd : deregister s clientID now = (.ok (), activateNextClient s now) := by
      simp [deregister, ha, heq]
    refine ⟨hd, ?_, ?_⟩
    · intro hw
      rw [hd]
      simp [activateNextClient, hw]
    · intro c rest hw
      rw [hd]
      simp [activateNextClient, hw]
  · intro hnact
    have hwait : deregister s clientID now = deregisterWaiting s clientID := by
      cases ha : s.activeClient with
      | none => simp [deregister, ha]
      | some a => simp [deregister, ha, hnact a ha]
    constructor
    · intro l1 c l2 hw hc hnone
      rw [hwait]
      unfold deregisterWaiting
      rw [hw, removeFirstClient_split clientID l1 c l2 hc hnone]
    · intro hnone
      rw [hwait]
      unfold deregisterWaiting
      rw [removeFirstClient_not_found clientID s.waitingClients hnone]

/-- Witness for C8: deregistering the active client 0 while client 1 waits
promotes client 1 (refreshing its timestamp to the call time 7). -/
theorem single_client_deregister_spec_witness :
    (deregister
        { capacity := 3, sessionTimeout := 10, jobDuration := 2,
          activeClient := some { id := 0, lastActive := 0 },
          waitingClients := [{ id := 1, lastActive := 0 }],
          jobs := [], scheduled := [], nextId := 2 } 0 7).2.activeClient =
      some { id := 1, lastActive := 7 } ∧
    (deregister
        { capacity := 3, sessionTimeout := 10, jobDuration := 2,
          activeClient := some { id := 0, lastActive := 0 },
          waitingClients := [{ id := 1, lastActive := 0 }],
          jobs := [], scheduled := [], nextId := 2 } 0 7).2.waitingClients = [] :=
  ((single_client_deregister_spec
      { capacity := 3, sessionTimeout := 10, jobDuration := 2,
        activeClient := some { id := 0, lastActive := 0 },
        waitingClients := [{ id := 1, lastActive := 0 }],
        jobs := [], scheduled := [], nextId := 2 } 0 7).1
    { id := 0, lastActive := 0 } rfl rfl).2.2 { id := 1, lastActive := 0 } [] rfl

theorem completeRequest_jobs_length (s : SCState) (jobID now : Nat) :
    (completeRequest s jobID now).2.jobs.length = s.jobs.length ∧
      (completeRequest s jobID now).2.capacity = s.capacity := by
  unfold completeRequest
  cases h : alistLookup s.jobs jobID <;> simp [h, alistSet]

theorem deregister_jobs (s : SCState) (cid now : Nat) :
    (deregister s cid now).2.jobs = s.jobs ∧
      (deregister s cid now).2.capacity = s.capacity := by
  cases hA : s.activeClient with
  | none =>
      cases hR : removeFirstClient s.waitingClients cid <;>
        simp [deregister, deregisterWaiting, hA, hR]
  | some a =>
      by_cases h1 : a.id = cid
      · simp [deregister, hA, h1, (activateNextClient_jobs s now).1,
          (activateNextClient_jobs s now).2]
      · cases hR : removeFirstClient s.waitingClients cid <;>
          simp [deregister, deregisterWaiting, hA, h1, hR]

theorem cleanupClientsTick_jobs (s : SCState) (now : Nat) :
    (cleanupClientsTick s now).jobs = s.jobs ∧
      (cleanupClientsTick s now).capacity = s.capacity := by
  unfold cleanupClientsTick
  cases hA : s.activeClient with
  | none => simp
  | some a =>
      by_cases h1 : s.sessionTimeout < now - a.lastActive
      · simp [h1, (activateNextClient_jobs s now).1, (activateNextClient_jobs s now).2]
      · simp [h1]

theorem scStep_inv (s : SCState) (op : SCOp)
    (h : s.jobs.length ≤ s.capacity) :
    (scStep s op).jobs.length ≤ (scStep s op).capacity ∧
      (scStep s op).capacity = s.capacity := by
  cases op with
  | register now =>
      cases hA : s.activeClient <;> simp [scStep, registerClient, hA, h]
  | job cid now =>
      simp only [scStep]
      cases hA : s.activeClient with
      | none => rw [registerJob_not_active_none s cid now hA]; exact ⟨h, rfl⟩
      | some a =>
          by_cases h1 : a.id = cid
          · by_cases h2 : s.sessionTimeout < now - a.lastActive
            · rw [registerJob_stale s a cid now hA h1 h2]
              refine ⟨?_, (activateNextClient_jobs s now).2⟩
              rw [(activateNextClient_jobs s now).1, (activateNextClient_jobs s now).2]
              exact h
            · by_cases h3 : s.capacity ≤ s.jobs.length
              · rw [registerJob_at_capacity s a cid now hA h1 (Nat.not_lt.mp h2) h3]
                exact ⟨h, rfl⟩
              · rw [registerJob_success s a cid now hA h1 (Nat.not_lt.mp h2)
                  (Nat.not_le.mp h3)]
                refine ⟨?_, rfl⟩
                simp only [List.length_append, List.length_cons, List.length_nil]
                omega
          · rw [registerJob_not_active_other s a cid now hA h1]
            exact ⟨h, rfl⟩
  | complete jid now =>
      simp only [scStep]
      split
      · refine ⟨?_, (completeRequest_jobs_length s jid now).2⟩
        rw [(completeRequest_jobs_length s jid now).1,
          (completeRequest_jobs_length s jid now).2]
        exact h
      · exact ⟨h, rfl⟩
  | dereg cid now =>
      simp only [scStep]
      refine ⟨?_, (deregister_jobs s cid now).2⟩
      rw [(deregister_jobs s cid now).1, (deregister_jobs s cid now).2]
      exact h
  | cleanupClients now =>
      simp only [scStep]
      refine ⟨?_, (cleanupClientsTick_jobs s now).2⟩
      rw [(cleanupClientsTick_jobs s now).1, (cleanupClientsTick_jobs s now).2]
      exact h
  | cleanupJobs now =>
      simp only [scStep]
      unfold cleanupJobsTick
      refine ⟨?_, rfl⟩
      exact le_trans (List.length_filter_le _ _) h

theorem runSC_foldl_inv (ops : List SCOp) :
    ∀ s : SCState, s.jobs.length ≤ s.capacity →
      (ops.foldl scStep s).jobs.length ≤ (ops.foldl scStep s).capacity ∧
        (ops.foldl scStep s).capacity = s.capacity := by
  induction ops with
  | nil => intro s h; exact ⟨h, rfl⟩
  | cons op rest ih =>
      intro s h
      have h1 := scStep_inv s op h
      have h2 := ih (scStep s op) h1.1
      exact ⟨h2.1, h2.2.trans h1.2⟩

/-- **C2 (counterexample).** The claim bounds the number of
concurrently-tracked jobs by the configured capacity in *both* fairness
strategies.  In the round-robin strategy `RegisterJob` inserts into
`activeJobs` without any capacity check: with capacity 1, one registered
client submitting two jobs (none completed, none pruned) leaves two
tracked jobs in `activeJobs`. -/
theorem tracked_jobs_capacity_counterexample :
    (runRR 1 [RROp.register 0, RROp.job 0 0, RROp.job 0 0]).capacity = 1 ∧
      (runRR 1 [RROp.register 0, RROp.job 0 0, RROp.job 0 0]).activeJobs.length = 2 ∧
      (runRR 1 [RROp.register 0, RROp.job 0 0, RROp.job 0 0]).completedJobs = [] := by
  decide

/-- **C2 (amended).** In the single-client strategy the number of tracked
jobs never exceeds the configured capacity, over every operation sequence
from a fresh balancer.  In the round-robin strategy no such bound holds
for tracked jobs (enqueue performs no capacity check); there the capacity
only gates dispatch: `processNextJob` is a no-op whenever the tracked-job
count has reached capacity. -/
theorem tracked_jobs_capacity_amended (capacity sessionTimeout jobDuration : Nat)
    (ops : List SCOp) :
    (runSC capacity sessionTimeout jobDuration ops).jobs.length ≤ capacity ∧
      ∀ s : RRState, s.capacity ≤ s.activeJobs.length → processNextJob s = s := by
  constructor
  · have h := runSC_foldl_inv ops (SCState.init capacity sessionTimeout jobDuration)
      (by simp [SCState.init])
    have hcap : (runSC capacity sessionTimeout jobDuration ops).capacity = capacity := h.2
    exact le_trans h.1 (le_of_eq hcap)
  · intro s hs
    simp [processNextJob, hs]

/-- Witness for C2 (amended): a register-then-one-job trace with capacity 2
respects the bound, and a zero-capacity round-robin balancer's dispatch is
a no-op. -/
theorem tracked_jobs_capacity_amended_witness :
    (runSC 2 10 1 [SCOp.register 0, SCOp.job 0 0]).jobs.length ≤ 2 ∧
      processNextJob (RRState.init 0) = RRState.init 0 :=
  ⟨(tracked_jobs_capacity_amended 2 10 1 [SCOp.register 0, SCOp.job 0 0]).1,
   (tracked_jobs_capacity_amended 2 10 1 []).2 (RRState.init 0) (by decide)⟩

/-- **C10.** In the single-client strategy a completed job keeps counting
toward the capacity check until the cleanup sweep prunes it: completing a
job leaves the tracked-job count unchanged; the sweep keeps every job
whose completion age is within the session timeout; and `RegisterJob`
returns the at-capacity error whenever the tracked-job count has reached
capacity — even when every tracked job has already finished. -/
theorem completed_jobs_count_toward_capacity :
    (∀ (s : SCState) (jobID now : Nat),
        (completeRequest s jobID now).2.jobs.length = s.jobs.length) ∧
      (∀ (s : SCState) (now : Nat) (kv : Nat × Job), kv ∈ s.jobs →
        (∀ t, kv.2.completedAt = some t → now - t ≤ s.sessionTimeout) →
        kv ∈ (cleanupJobsTick s now).jobs) ∧
      (∀ (s : SCState) (a : Client) (clientID now : Nat),
        s.activeClient = some a → a.id = clientID →
        now - a.lastActive ≤ s.sessionTimeout →
        s.capacity ≤ s.jobs.length →
        (∀ kv ∈ s.jobs, kv.2.completedAt ≠ none) →
        registerJob s clientID now = (.error .serverAtCapacity, s)) := by
  refine ⟨?_, ?_, ?_⟩
  · intro s jobID now
    exact (completeRequest_jobs_length s jobID now).1
  · intro s now kv hmem hfresh
    unfold cleanupJobsTick
    refine List.mem_filter.mpr ⟨hmem, ?_⟩
    unfold jobExpired
    cases hC : kv.2.completedAt with
    | none => simp
    | some t =>
        have ht := hfresh t hC
        simp [Nat.not_lt.mpr ht]
  · intro s a clientID now hA heq hfreshA hcap _
    exact registerJob_at_capacity s a clientID now hA heq hfreshA hcap

/-- Witness for C10: with capacity 1, one tracked job already completed at
time 1 and session timeout 10, completing keeps the count at 1, the sweep
at time 3 keeps the job, and a fresh register-job call at time 3 by the
active client is refused with the at-capacity error. -/
theorem completed_jobs_count_toward_capacity_witness :
    (completeRequest
        { capacity := 1, sessionTimeout := 10, jobDuration := 2,
          activeClient := some { id := 0, lastActive := 0 },
          waitingClients := [],
          jobs := [(1, { createdAt := 0, completedAt := some 1 })],
          scheduled := [(1, 2)], nextId := 2 } 1 3).2.jobs.length = 1 ∧
    ((1 : Nat), { createdAt := 0, completedAt := some 1 : Job }) ∈
      (cleanupJobsTick
        { capacity := 1, sessionTimeout := 10, jobDuration := 2,
          activeClient := some { id := 0, lastActive := 0 },
          waitingClients := [],
          jobs := [(1, { createdAt := 0, completedAt := some 1 })],
          scheduled := [(1, 2)], nextId := 2 } 3).jobs ∧
    registerJob
        { capacity := 1, sessionTimeout := 10, jobDuration := 2,
          activeClient := some { id := 0, lastActive := 0 },
          waitingClients := [],
          jobs := [(1, { createdAt := 0, completedAt := some 1 })],
          scheduled := [(1, 2)], nextId := 2 } 0 3 =
      (.error .serverAtCapacity,
        { capacity := 1, sessionTimeout := 10, jobDuration := 2,
          activeClient := some { id := 0, lastActive := 0 },
          waitingClients := [],
          jobs := [(1, { createdAt := 0, completedAt := some 1 })],
          scheduled := [(1, 2)], nextId := 2 }) :=
  ⟨completed_jobs_count_toward_capacity.1
      { capacity := 1, sessionTimeout := 10, jobDuration := 2,
        activeClient := some { id := 0, lastActive := 0 },
        waitingClients := [],
        jobs := [(1, { createdAt := 0, completedAt := some 1 })],
        scheduled := [(1, 2)], nextId := 2 } 1 3,
   completed_jobs_count_toward_capacity.2.1
      { capacity := 1, sessionTimeout := 10, jobDuration := 2,
        activeClient := some { id := 0, lastActive := 0 },
        waitingClients := [],
        jobs := [(1, { createdAt := 0, completedAt := some 1 })],
        scheduled := [(1, 2)], nextId := 2 } 3
      (1, { createdAt := 0, completedAt := some 1 }) (by decide)
      (by intro t ht; injection ht with h2; subst h2; decide),
   completed_jobs_count_toward_capacity.2.2
      { capacity := 1, sessionTimeout := 10, jobDuration := 2,
        activeClient := some { id := 0, lastActive := 0 },
        waitingClients := [],
        jobs := [(1, { createdAt := 0, completedAt := some 1 })],
        scheduled := [(1, 2)], nextId := 2 }
      { id := 0, lastActive := 0 } 0 3 rfl rfl (by decide) (by decide) (by decide)⟩

/-- **C9 (code evaluation at the failing input).** The claim says
`GetJobStatus` of the round-robin strategy reports `finished` for a
dispatched, completed, not-yet-pruned job.  In the code, `processJob`
moves the completed job from `activeJobs` into `completedJobs`, and
`GetJobStatus` consults only `activeJobs`, so the completed job — still
present in `completedJobs`, hence not pruned — is reported as
`ErrorJobNotFound`; the `pending` half of the claim does hold before
completion. -/
theorem round_robin_job_status_bug :
    rrGetJobStatus (runRR 3 [RROp.register 0, RROp.job 0 0]) 1 = .ok .pending ∧
      rrGetJobStatus (runRR 3 [RROp.register 0, RROp.job 0 0, RROp.complete 1 5]) 1 =
        .error .jobNotFound ∧
      alistLookup
          (runRR 3 [RROp.register 0, RROp.job 0 0, RROp.complete 1 5]).completedJobs 1 =
        some { createdAt := 0, completedAt := some 5 } := by
  decide

/-- **C5 (amended).** Exceeding the timeout yields the distinct
`ErrNoCapacity` error (different from the selection errors `ErrNoServers`
and `ErrNoHealthyServers`, and from success), but cancellation of the
surrounding context before a slot is obtained yields that same
`ErrNoCapacity` error, so the two failure causes are not distinguishable
from the returned error. -/
theorem acquire_timeout_error_amended :
    (∀ r : DoneReason,
        acquireCapacityOutcome (SelectBranch.ctxDone r) = some ProxyError.noCapacity) ∧
      acquireCapacityOutcome SelectBranch.slotAcquired = none ∧
      ProxyError.noCapacity ≠ ProxyError.noServers ∧
      ProxyError.noCapacity ≠ ProxyError.noHealthyServers := by
  refine ⟨?_, by decide, by decide, by decide⟩
  intro r
  cases r <;> rfl
